import Mathlib

/-! Verification of the watcher compute cluster-data-model builder
(src/watcher/decision_engine/model/collector/nova.py) and of the keystone
lookup helper (src/watcher/common/keystone_helper.py), as a shallow
embedding in Lean 4.

Python dictionaries are embedded as association lists keyed by strings,
Python sets of strings as duplicate-free lists built by first-occurrence
insertion, remote API clients as explicit environment records of functions,
and Python exceptions as an `Except` error monad.  The classes
`model_root.ModelRoot` and `nova_helper.NovaHelper` are not part of the
two source files; `ModelRoot` is modelled from the spec (see its doc
comment) and `NovaHelper` is the external collaborator boundary, supplied
as data in the environment record. -/

namespace Watcher

/-! Basic embedding of Python values, dicts and string sets. -/

/-- Scope values appearing inside audit-scope dictionaries: integers
(aggregate ids) or strings (names, the wildcard). -/
inductive SVal where
  | i : Int → SVal
  | s : String → SVal
deriving DecidableEq

/-- A Python dict with string keys, embedded as an association list. -/
abbrev Dict (α : Type) := List (String × α)

/-- Lookup of a key in a dict; `none` means the key is absent. -/
def dictGet {α : Type} (d : Dict α) (k : String) : Option α :=
  (d.find? (fun p => p.1 == k)).map (fun p => p.2)

/-- Insertion into a Python set of strings, keeping first-occurrence order. -/
def pyInsert (s : List String) (x : String) : List String :=
  if x ∈ s then s else s ++ [x]

/-- Python `set.update(xs)` for a list argument: insert every element. -/
def pyUpdate (s : List String) (xs : List String) : List String :=
  xs.foldl pyInsert s

/-- Python `set.update(h)` for a STRING argument: a string is a sequence of
its characters, so each one-character string is inserted separately.  The
source calls this on `service.host` in `_collect_zones`. -/
def pyUpdateStr (s : List String) (h : String) : List String :=
  h.data.foldl (fun acc c => pyInsert acc (String.mk [c])) s

/-- Python `set(xs)`: deduplicate a list of strings. -/
def pySet (xs : List String) : List String :=
  xs.foldl pyInsert []

/-! Audit-scope shapes.  An aggregate or zone filter entry is a small dict
such as one holding the key "id" or the key "name"; the stored model scope
maps the filter keys to entry lists; the incoming scope argument is a list
of dicts such as one holding the key "compute". -/

abbrev ScopeEntry := Dict SVal
abbrev StoredScope := Dict (List ScopeEntry)
abbrev ComputeScope := List (Dict (List ScopeEntry))
abbrev Scope := List (Dict ComputeScope)

/-- Python exceptions that can escape the embedded code. -/
inductive PyErr where
  | attributeError
  | indexError
  | keyError
  | notFound
  | computeNodeNotFound
deriving DecidableEq

/-! The scope cache: `ModelBuilder._merge_compute_scope` and
`ModelBuilder._check_model_scope`. -/

/-- Embedding of `ModelBuilder._merge_compute_scope`.  The source iterates
over the role dicts of the compute scope; `role.keys()[0]` raises
`IndexError` on an empty dict; when a role key already stored would gain a
new value the source calls `.sppend` (a typo) which raises
`AttributeError`, and when the role key is new it assigns through
`self.self` which also raises `AttributeError`.  Both raising lines come
before `update_flag` is ever set, so a successful run always returns the
stored scope unchanged with flag `false`. -/
def merge_compute_scope (stored : StoredScope) : ComputeScope → Except PyErr (StoredScope × Bool)
  | [] => .ok (stored, false)
  | role :: rest =>
    match role with
    | [] => .error .indexError
    | (role_key, role_values) :: _ =>
      if role_key = "host_aggregates" ∨ role_key = "availability_zones" then
        match dictGet stored role_key with
        | some vs =>
          if role_values.all (fun v => vs.contains v) then
            merge_compute_scope stored rest
          else
            .error .attributeError
        | none => .error .attributeError
      else
        merge_compute_scope stored rest

/-- Embedding of `ModelBuilder._check_model_scope`: extract the first
"compute" entry of the incoming scope; if a scope is stored and the incoming
scope is empty, clear the stored scope and flag a rebuild; if both are
non-empty, merge; otherwise leave everything unchanged. -/
def check_model_scope (stored : StoredScope) (model_scope : Scope) : Except PyErr (StoredScope × Bool) :=
  let compute_scope : ComputeScope :=
    (model_scope.findSome? (fun sc => dictGet sc "compute")).getD []
  if stored.isEmpty then .ok (stored, false)
  else if model_scope.isEmpty then .ok ([], true)
  else if compute_scope.isEmpty then .ok (stored, false)
  else merge_compute_scope stored compute_scope

/-- A successful merge never changes the stored scope and never reports an
update: every updating path of the source raises before setting the flag. -/
theorem merge_compute_scope_ok (stored : StoredScope) (cs : ComputeScope)
    (p : StoredScope × Bool) (h : merge_compute_scope stored cs = .ok p) :
    p = (stored, false) := by
  induction cs with
  | nil => simpa [merge_compute_scope] using h.symm
  | cons role rest ih =>
    cases role with
    | nil => simp [merge_compute_scope] at h
    | cons kv tl =>
      rw [merge_compute_scope] at h
      split at h
      · split at h
        · split at h
          · exact ih h
          · exact absurd h (by simp)
        · exact absurd h (by simp)
      · exact ih h

/-! Records delivered by the external Nova collaborator. -/

/-- An aggregate record from `get_aggregate_list`: id, name and member
host names. -/
structure Aggregate where
  id : Int
  name : String
  hosts : List String
deriving DecidableEq

/-- A zone service record from `get_service_list`: host name and zone. -/
structure Service where
  host : String
  zone : String
deriving DecidableEq

/-- An entry of `get_compute_node_list`; only the hypervisor hostname is
read by the builder. -/
structure HypervisorRef where
  hypervisor_hostname : String
deriving DecidableEq

/-- A server stub inside a compute node detail record; the builder reads
its uuid. -/
structure ServerRef where
  uuid : String
deriving DecidableEq

/-- The first element of the list returned by `get_compute_node_by_name`
with `servers=True`: the node id and, from nova 2.53 on, the optional
server list. -/
structure CNode where
  id : Int
  servers : Option (List ServerRef)
deriving DecidableEq

/-- The detail record returned by `get_compute_node_by_id`, read by
`build_compute_node`; `service_host` and `service_disabled_reason` stand
for the dictionary entries of the `service` attribute. -/
structure NodeInfo where
  id : Int
  service_host : String
  hypervisor_hostname : String
  memory_mb : Int
  free_disk_gb : Int
  local_gb : Int
  vcpus : Int
  state : String
  status : String
  service_disabled_reason : Option String
deriving DecidableEq

/-- A nova server record, read by `_build_instance_node`; `host` embeds the
attribute named OS-EXT-SRV-ATTR:host, absent or unset values being `none`,
and the flavor footprint fields are inlined. -/
structure InstRecord where
  id : String
  human_id : String
  flavor_ram : Int
  flavor_disk : Int
  flavor_vcpus : Int
  vm_state : String
  metadata : Dict String
  tenant_id : String
  locked : Bool
  host : Option String
deriving DecidableEq

/-! The model elements and the cluster model. -/

/-- The `element.ComputeNode` attribute set, exactly the dictionary built by
`ModelBuilder.build_compute_node`. -/
structure ComputeNode where
  id : Int
  uuid : String
  hostname : String
  memory : Int
  disk : Int
  disk_capacity : Int
  vcpus : Int
  state : String
  status : String
  disabled_reason : Option String
deriving DecidableEq

/-- The `element.Instance` attribute set, exactly the dictionary built by
`ModelBuilder._build_instance_node`. -/
structure Instance where
  uuid : String
  human_id : String
  memory : Int
  disk : Int
  disk_capacity : Int
  vcpus : Int
  state : String
  metadata : Dict String
  project_id : String
  locked : Bool
deriving DecidableEq

/-- Modelled from the spec: `model_root.ModelRoot` is not among the source
files.  Per the spec data model the ClusterModel owns the Host set, the
Instance set and the many-to-one Instance-to-Host mapping; nodes and
instances are keyed by uuid and adding an entity with an already present
uuid refreshes it, and mapping the same instance twice overwrites rather
than duplicates the relation. -/
structure ModelRoot where
  nodes : List ComputeNode
  instances : List Instance
  mapping : Dict String
deriving DecidableEq

/-- Modelled from the spec: a freshly allocated, empty ClusterModel. -/
def ModelRoot.empty : ModelRoot := { nodes := [], instances := [], mapping := [] }

/-- Modelled from the spec: add or refresh a Host node, keyed by uuid. -/
def ModelRoot.add_node (m : ModelRoot) (c : ComputeNode) : ModelRoot :=
  { m with nodes := m.nodes.filter (fun n => n.uuid != c.uuid) ++ [c] }

/-- Modelled from the spec: add or refresh an Instance, keyed by uuid. -/
def ModelRoot.add_instance (m : ModelRoot) (x : Instance) : ModelRoot :=
  { m with instances := m.instances.filter (fun y => y.uuid != x.uuid) ++ [x] }

/-- Modelled from the spec: look a Host node up by uuid; `none` embeds the
`ComputeNodeNotFound` outcome, also raised for a `None` argument. -/
def ModelRoot.get_node_by_uuid (m : ModelRoot) (u : Option String) : Option ComputeNode :=
  match u with
  | none => none
  | some uuid => m.nodes.find? (fun n => n.uuid == uuid)

/-- Modelled from the spec: record the Instance-to-Host relation,
overwriting any previous mapping of the same instance. -/
def ModelRoot.map_instance (m : ModelRoot) (x : Instance) (c : ComputeNode) : ModelRoot :=
  { m with mapping := (x.uuid, c.uuid) :: m.mapping.filter (fun p => p.1 != x.uuid) }

/-- The external Nova collaborator (`nova_helper.NovaHelper`), supplied as
data: list calls return their records, detail calls return `none` for a
NotFound outcome, and `find_instance` returns `none` when the fetch raised
(the caller catches every exception from it). -/
structure NovaEnv where
  aggregate_list : List Aggregate
  service_list : List Service
  compute_node_list : List HypervisorRef
  compute_node_by_name : String → Option CNode
  compute_node_by_id : Int → Option NodeInfo
  find_instance : String → Option InstRecord
  instance_list : List InstRecord

/-! The scope resolver: `ModelBuilder._collect_aggregates` and
`ModelBuilder._collect_zones`. -/

/-- Embedding of `ModelBuilder._collect_aggregates`: gather the id and name
entries of the filter, include every aggregate whose id or name is listed,
or every aggregate when the wildcard appears among either list, and update
the node set with the member host LIST of each included aggregate. -/
def collect_aggregates (env : NovaEnv) (host_aggregates : List ScopeEntry)
    (nodes : List String) : List String :=
  let aggregate_ids := host_aggregates.filterMap (fun a => dictGet a "id")
  let aggregate_names := host_aggregates.filterMap (fun a => dictGet a "name")
  env.aggregate_list.foldl
    (fun ns aggregate =>
      if SVal.i aggregate.id ∈ aggregate_ids ∨ SVal.s aggregate.name ∈ aggregate_names ∨
          (SVal.s "*" ∈ aggregate_ids ∨ SVal.s "*" ∈ aggregate_names) then
        pyUpdate ns aggregate.hosts
      else ns)
    nodes

/-- Zone names of a zone filter; indexing each entry with the key "name"
raises `KeyError` when the key is absent. -/
def zone_names_of : List ScopeEntry → Except PyErr (List SVal)
  | [] => .ok []
  | z :: rest =>
    match dictGet z "name" with
    | none => .error .keyError
    | some v =>
      match zone_names_of rest with
      | .error e => .error e
      | .ok vs => .ok (v :: vs)

/-- Embedding of `ModelBuilder._collect_zones`: include the hosts of every
service whose zone is listed, or of every service when the wildcard appears;
the update is `set.update(service.host)` on a STRING, so it inserts the
characters of the host name one by one. -/
def collect_zones (env : NovaEnv) (availability_zones : List ScopeEntry)
    (nodes : List String) : Except PyErr (List String) :=
  match zone_names_of availability_zones with
  | .error e => .error e
  | .ok zone_names =>
    .ok (env.service_list.foldl
      (fun ns service =>
        if SVal.s service.zone ∈ zone_names ∨ SVal.s "*" ∈ zone_names then
          pyUpdateStr ns service.host
        else ns)
      nodes)

/-! The graph builder: node and instance construction. -/

/-- Embedding of `ModelBuilder.build_compute_node`. -/
def build_compute_node (node : NodeInfo) : ComputeNode :=
  { id := node.id
    uuid := node.service_host
    hostname := node.hypervisor_hostname
    memory := node.memory_mb
    disk := node.free_disk_gb
    disk_capacity := node.local_gb
    vcpus := node.vcpus
    state := node.state
    status := node.status
    disabled_reason := node.service_disabled_reason }

/-- Embedding of `ModelBuilder._build_instance_node`. -/
def build_instance_node (inst : InstRecord) : Instance :=
  { uuid := inst.id
    human_id := inst.human_id
    memory := inst.flavor_ram
    disk := inst.flavor_disk
    disk_capacity := inst.flavor_disk
    vcpus := inst.flavor_vcpus
    state := inst.vm_state
    metadata := inst.metadata
    project_id := inst.tenant_id
    locked := inst.locked }

/-- Embedding of `ModelBuilder.add_compute_node`: fetch the node detail by
id (a NotFound outcome propagates, nothing catches it) and add the built
node to the model. -/
def add_compute_node (env : NovaEnv) (node : CNode) (m : ModelRoot) : Except PyErr ModelRoot :=
  match env.compute_node_by_id node.id with
  | none => .error .notFound
  | some node_info => .ok (m.add_node (build_compute_node node_info))

/-- The per-uuid loop of `ModelBuilder.add_instance_node`: a failing
`find_instance` is caught and skipped; the built instance is added; then the
host attribute is looked up in the model WITHOUT any handler, so an
unresolvable (or absent) host raises `ComputeNodeNotFound` out of the
build. -/
def add_instances_loop (env : NovaEnv) (uuids : List String) (m : ModelRoot) :
    Except PyErr ModelRoot :=
  match uuids with
  | [] => .ok m
  | uuid :: rest =>
    match env.find_instance uuid with
    | none => add_instances_loop env rest m
    | some inst =>
      let inst_node := build_instance_node inst
      let m1 := m.add_instance inst_node
      match m1.get_node_by_uuid inst.host with
      | none => .error .computeNodeNotFound
      | some compute_node => add_instances_loop env rest (m1.map_instance inst_node compute_node)

/-- Embedding of `ModelBuilder.add_instance_node`: when the node record has
no `servers` attribute there is nothing to do; otherwise run the per-uuid
loop over the server uuids. -/
def add_instance_node (env : NovaEnv) (node : CNode) (m : ModelRoot) : Except PyErr ModelRoot :=
  match node.servers with
  | none => .ok m
  | some servers => add_instances_loop env (servers.map (fun s => s.uuid)) m

/-- The host loop of `ModelBuilder._add_physical_layer` (its final `for`):
fetch each target host by name; an empty result is skipped silently,
otherwise the compute node and its instances are added. -/
def add_hosts_loop (env : NovaEnv) (names : List String) (m : ModelRoot) :
    Except PyErr ModelRoot :=
  match names with
  | [] => .ok m
  | node_name :: rest =>
    match env.compute_node_by_name node_name with
    | none => add_hosts_loop env rest m
    | some cnode =>
      match add_compute_node env cnode m with
      | .error e => .error e
      | .ok m1 =>
        match add_instance_node env cnode m1 with
        | .error e => .error e
        | .ok m2 => add_hosts_loop env rest m2

/-- Embedding of `ModelBuilder._add_physical_layer`: resolve the target
host set from the stored scope (aggregates first, then zones), fall back to
the full hypervisor catalog when the resolved set is empty, then run the
host loop. -/
def add_physical_layer (env : NovaEnv) (model_scope : StoredScope) (m : ModelRoot) :
    Except PyErr ModelRoot :=
  let nodes0 : List String := []
  let nodes1 :=
    match dictGet model_scope "host_aggregates" with
    | some (e :: es) => collect_aggregates env (e :: es) nodes0
    | _ => nodes0
  match (match dictGet model_scope "availability_zones" with
         | some (e :: es) => collect_zones env (e :: es) nodes1
         | _ => .ok nodes1) with
  | .error e => .error e
  | .ok nodes2 =>
    let compute_nodes :=
      match nodes2 with
      | [] => pySet (env.compute_node_list.map (fun n => n.hypervisor_hostname))
      | _ => nodes2
    add_hosts_loop env compute_nodes m

/-- Embedding of `ModelBuilder._add_virtual_servers` (the virtual-layer
walk): every listed instance is added; an instance with no host attribute
is left unmapped and the walk continues; a host uuid that the model cannot
resolve is caught (`ComputeNodeNotFound`) and the instance is left
unmapped. -/
def add_virtual_servers (env : NovaEnv) (m : ModelRoot) : ModelRoot :=
  env.instance_list.foldl
    (fun m inst =>
      let inst_node := build_instance_node inst
      let m1 := m.add_instance inst_node
      match inst.host with
      | none => m1
      | some cnode_uuid =>
        match m1.get_node_by_uuid (some cnode_uuid) with
        | none => m1
        | some compute_node => m1.map_instance inst_node compute_node)
    m

/-- The mutable state the builder keeps between `execute` calls: the cached
model (initially absent) and the stored scope (initially empty). -/
structure BState where
  model : Option ModelRoot
  model_scope : StoredScope
deriving DecidableEq

/-- Embedding of `ModelBuilder.execute`: check the scope; when no model is
held or the check flags an update, run `self.model = self.model or
ModelRoot()` (which KEEPS an existing model and allocates a fresh one only
when none is held) and add the physical layer into it; otherwise return the
held model untouched. -/
def execute (env : NovaEnv) (st : BState) (model_scope : Scope) :
    Except PyErr (BState × ModelRoot) :=
  match check_model_scope st.model_scope model_scope with
  | .error e => .error e
  | .ok (scope1, updata_model_flag) =>
    match st.model, updata_model_flag with
    | some m, false => .ok ({ st with model_scope := scope1 }, m)
    | some m, true =>
      match add_physical_layer env scope1 m with
      | .error e => .error e
      | .ok m2 => .ok ({ model := some m2, model_scope := scope1 }, m2)
    | none, _ =>
      match add_physical_layer env scope1 ModelRoot.empty with
      | .error e => .error e
      | .ok m2 => .ok ({ model := some m2, model_scope := scope1 }, m2)

/-- Concrete stored scope used against the defective merge: one aggregate id
is already stored. -/
def storedC2 : StoredScope := [("host_aggregates", [[("id", SVal.i 1)]])]

/-- Concrete incoming scope adding aggregate id 2, absent from the stored
scope. -/
def scopeC2 : Scope :=
  [[("compute", [[("host_aggregates", [[("id", SVal.i 1)], [("id", SVal.i 2)]])]])]]

/-- C2: for a stored scope and a newly supplied scope that contains an
aggregate id absent from the stored scope, the scope check does not return
the rebuild decision with the new scope stored; it raises `AttributeError`
(the source line `self.model_scope[role_key].sppend(value)` names a method
that does not exist). -/
theorem C2_code_eval :
    check_model_scope storedC2 scopeC2 = .error .attributeError := by
  rfl

/-- C8: whenever a non-empty scope is stored and the incoming scope is
empty, the scope cache clears the stored scope entirely and signals the
rebuild decision. -/
theorem C8_thm (stored : StoredScope) (h : stored ≠ []) :
    check_model_scope stored [] = .ok ([], true) := by
  cases stored with
  | nil => exact absurd rfl h
  | cons a t => rfl

/-- The scope check leaves a reuse decision stable: whatever scope check
succeeded once, running the same incoming scope against the scope it stored
reports no update and stores the same scope again. -/
theorem check_model_scope_stable (stored : StoredScope) (S : Scope)
    (sc1 : StoredScope) (flag : Bool)
    (h : check_model_scope stored S = .ok (sc1, flag)) :
    check_model_scope sc1 S = .ok (sc1, false) := by
  unfold check_model_scope at h ⊢
  dsimp only at h ⊢
  cases hst : stored.isEmpty with
  | true =>
    rw [hst] at h
    simp only [if_true, Except.ok.injEq, Prod.mk.injEq] at h
    obtain ⟨rfl, -⟩ := h
    simp [hst]
  | false =>
    rw [hst] at h
    cases hS : S.isEmpty with
    | true =>
      rw [hS] at h
      simp only [Bool.false_eq_true, if_false, if_true, Except.ok.injEq,
        Prod.mk.injEq] at h
      obtain ⟨rfl, -⟩ := h
      simp [hS]
    | false =>
      rw [hS] at h
      cases hcs : ((S.findSome? (fun sc => dictGet sc "compute")).getD []).isEmpty with
      | true =>
        rw [hcs] at h
        simp only [Bool.false_eq_true, if_false, if_true, Except.ok.injEq,
          Prod.mk.injEq] at h
        obtain ⟨rfl, -⟩ := h
        simp [hst, hS, hcs]
      | false =>
        rw [hcs] at h
        simp only [Bool.false_eq_true, if_false] at h
        obtain ⟨rfl, rfl⟩ : sc1 = stored ∧ flag = false := by
          have hp := merge_compute_scope_ok _ _ _ h
          exact ⟨congrArg Prod.fst hp, congrArg Prod.snd hp⟩
        simp [hst, hS, hcs, h]

/-- Witness for C8 at the concrete stored scope holding one aggregate id. -/
theorem C8_witness :
    storedC2 ≠ [] ∧ check_model_scope storedC2 [] = .ok ([], true) :=
  ⟨by decide, C8_thm storedC2 (by decide)⟩

/-! Claim C1: what a scope-decided rebuild does to a previously held model. -/

/-- A Nova environment in which every remote call returns nothing: no
aggregates, no services, an empty hypervisor catalog, and failing detail
fetches. -/
def envC1 : NovaEnv :=
  { aggregate_list := []
    service_list := []
    compute_node_list := []
    compute_node_by_name := fun _ => none
    compute_node_by_id := fun _ => none
    find_instance := fun _ => none
    instance_list := [] }

/-- A host entity held by the previous model; `envC1` can never return it. -/
def staleNode : ComputeNode :=
  ⟨7, "stale-uuid", "stale-host", 2048, 10, 100, 4, "up", "enabled", none⟩

/-- The previous model, holding one stale host. -/
def mStale : ModelRoot := ⟨[staleNode], [], []⟩

/-- Builder state before the rebuild: a model is held and a non-empty scope
is stored, so an empty incoming scope forces the scope cache to decide a
rebuild. -/
def stC1 : BState :=
  { model := some mStale, model_scope := [("host_aggregates", [[("id", SVal.i 1)]])] }

/-- Counterexample to C1: the scope cache decides a rebuild (clearing the
stored scope), yet `execute` returns the previously held model object with
the stale host still inside, although the environment cannot re-fetch any
host at all — the line `self.model = self.model or ModelRoot()` keeps an
existing model instead of allocating a new empty one. -/
theorem C1_counterexample :
    check_model_scope stC1.model_scope [] = .ok ([], true) ∧
    execute envC1 stC1 [] = .ok ({ model := some mStale, model_scope := [] }, mStale) ∧
    staleNode ∈ mStale.nodes ∧
    envC1.compute_node_by_name "stale-host" = none :=
  ⟨rfl, rfl, by decide, rfl⟩

/-- C1 amended: on every scope-decided rebuild, the builder allocates a new
empty ClusterModel only when none is held; when a previous model exists,
that very model is retained and the physical layer is rebuilt into it, so
entities of the previous model can survive without being re-fetched. -/
theorem C1_amended_thm (env : NovaEnv) (st : BState) (scope : Scope)
    (m : ModelRoot) (scope1 : StoredScope)
    (hm : st.model = some m)
    (hc : check_model_scope st.model_scope scope = .ok (scope1, true)) :
    execute env st scope =
      match add_physical_layer env scope1 m with
      | .error e => .error e
      | .ok m2 => .ok ({ model := some m2, model_scope := scope1 }, m2) := by
  unfold execute
  rw [hc, hm]

/-- Witness for the amended C1 at the concrete rebuild of
`C1_counterexample`. -/
theorem C1_amended_witness :
    execute envC1 stC1 [] =
      match add_physical_layer envC1 [] mStale with
      | .error e => .error e
      | .ok m2 => .ok ({ model := some m2, model_scope := [] }, m2) :=
  C1_amended_thm envC1 stC1 [] mStale [] rfl rfl

/-! Claim C4: an instance record with no host attribute. -/

/-- An instance record that is not attached to any compute node: its host
attribute is unset. -/
def instNoHost : InstRecord :=
  ⟨"i1", "vm1", 512, 5, 2, "active", [], "proj", false, none⟩

/-- A compute node detail record listing that instance among its servers. -/
def cnodeC4 : CNode := ⟨1, some [⟨"i1"⟩]⟩

/-- Environment whose only instance is the hostless one. -/
def envC4 : NovaEnv :=
  { aggregate_list := []
    service_list := []
    compute_node_list := []
    compute_node_by_name := fun _ => none
    compute_node_by_id := fun _ => none
    find_instance := fun u => if u = "i1" then some instNoHost else none
    instance_list := [instNoHost] }

/-- C4 evaluated on the code: in `add_instance_node` — the function the
physical-layer build actually runs — an instance whose host attribute is
absent makes the unguarded model lookup raise `ComputeNodeNotFound`, which
nothing catches, so the build does NOT continue; by contrast the cited
virtual-layer walk `_add_virtual_servers` adds the same instance unmapped
and raises nothing. -/
theorem C4_code_eval :
    add_instance_node envC4 cnodeC4 ModelRoot.empty = .error .computeNodeNotFound ∧
    (add_virtual_servers envC4 ModelRoot.empty).instances = [build_instance_node instNoHost] ∧
    (add_virtual_servers envC4 ModelRoot.empty).mapping = [] :=
  ⟨rfl, rfl, rfl⟩

/-! Claim C5: the wildcard zone filter versus the zone-service host list. -/

/-- Environment with a single zone service on host "node1". -/
def envC5 : NovaEnv :=
  { aggregate_list := []
    service_list := [⟨"node1", "nova"⟩]
    compute_node_list := []
    compute_node_by_name := fun _ => none
    compute_node_by_id := fun _ => none
    find_instance := fun _ => none
    instance_list := [] }

/-- C5 evaluated on the code: with the wildcard zone filter, the resolved
set is NOT the zone-service host list but the set of its characters,
because `_collect_zones` calls `set.update` on the host STRING instead of
adding it — so the resolved set differs from the full host list. -/
theorem C5_code_eval :
    collect_zones envC5 [[("name", SVal.s "*")]] [] =
      .ok ["n", "o", "d", "e", "1"] ∧
    pySet (envC5.service_list.map (fun s => s.host)) = ["node1"] ∧
    (["n", "o", "d", "e", "1"] : List String) ≠ ["node1"] :=
  ⟨rfl, rfl, by decide⟩

/-! Claim C3: building twice with the same scope reuses the cached model. -/

/-- C3: whenever a build call with a non-empty scope S succeeds, a second
call with the same S returns exactly the same state and the identical model
value, and does so for EVERY environment — the second call consults no
remote data at all, which embeds "performs no remote fetches". -/
theorem C3_thm (env env2 : NovaEnv) (st st1 : BState) (S : Scope) (m : ModelRoot)
    (hS : S ≠ [])
    (h1 : execute env st S = .ok (st1, m)) :
    execute env2 st1 S = .ok (st1, m) := by
  unfold execute at h1
  cases hc : check_model_scope st.model_scope S with
  | error e =>
    rw [hc] at h1
    exact absurd h1 (by simp)
  | ok p =>
    obtain ⟨sc1, flag⟩ := p
    rw [hc] at h1
    have hstab := check_model_scope_stable _ _ _ _ hc
    cases hm : st.model with
    | none =>
      rw [hm] at h1
      dsimp only at h1
      cases hap : add_physical_layer env sc1 ModelRoot.empty with
      | error e =>
        rw [hap] at h1
        exact absurd h1 (by simp)
      | ok m2 =>
        rw [hap] at h1
        injection h1 with h2
        injection h2 with hA hB
        subst hA
        subst hB
        unfold execute
        dsimp only
        rw [hstab]
    | some m0 =>
      rw [hm] at h1
      cases flag with
      | false =>
        dsimp only at h1
        injection h1 with h2
        injection h2 with hA hB
        subst hA
        subst hB
        unfold execute
        dsimp only
        rw [hstab]
      | true =>
        dsimp only at h1
        cases hap : add_physical_layer env sc1 m0 with
        | error e =>
          rw [hap] at h1
          exact absurd h1 (by simp)
        | ok m2 =>
          rw [hap] at h1
          injection h1 with h2
          injection h2 with hA hB
          subst hA
          subst hB
          unfold execute
          dsimp only
          rw [hstab]

/-- Environment for the C3 witness; nothing needs to exist remotely. -/
def envC3 : NovaEnv :=
  { aggregate_list := []
    service_list := []
    compute_node_list := []
    compute_node_by_name := fun _ => none
    compute_node_by_id := fun _ => none
    find_instance := fun _ => none
    instance_list := [] }

/-- A non-empty concrete scope for the C3 witness. -/
def scopeC3 : Scope := [[("compute", [])]]

/-- The state after the first C3 build: an (empty) model is cached. -/
def stC3 : BState := { model := some ModelRoot.empty, model_scope := [] }

/-- Witness for C3: a first build from the initial state with `scopeC3`
succeeds, and the second build returns the identical state and model. -/
theorem C3_witness :
    scopeC3 ≠ [] ∧
    execute envC3 { model := none, model_scope := [] } scopeC3 = .ok (stC3, ModelRoot.empty) ∧
    execute envC3 stC3 scopeC3 = .ok (stC3, ModelRoot.empty) :=
  ⟨by simp [scopeC3], rfl,
   C3_thm envC3 envC3 { model := none, model_scope := [] } stC3 scopeC3 ModelRoot.empty
     (by simp [scopeC3]) rfl⟩

/-! Claim C7: the wildcard short-circuits the other filter entries. -/

/-- The aggregate filter holding only the wildcard (as an id entry). -/
def wildcard_id_filter : List ScopeEntry := [[("id", SVal.s "*")]]

/-- The zone filter holding only the wildcard name entry. -/
def wildcard_name_filter : List ScopeEntry := [[("name", SVal.s "*")]]

/-- When every zone filter entry carries a name, collecting the zone names
succeeds and returns exactly those names. -/
theorem zone_names_of_all_some (az : List ScopeEntry)
    (h : ∀ z ∈ az, (dictGet z "name").isSome) :
    zone_names_of az = .ok (az.filterMap (fun z => dictGet z "name")) := by
  induction az with
  | nil => rfl
  | cons z rest ih =>
    have hz := h z (by simp)
    obtain ⟨v, hv⟩ := Option.isSome_iff_exists.mp hz
    rw [zone_names_of, hv, ih (fun w hw => h w (by simp [hw]))]
    simp [List.filterMap_cons, hv]

/-- C7: a filter list containing the wildcard among its entries resolves to
exactly the same host set as the filter list containing only the wildcard —
for the aggregate filter whenever the wildcard appears among the id or the
name entries, and for the zone filter whenever a name entry is the wildcard
(and every entry carries a name, since the source indexes each entry with
the "name" key unconditionally). -/
theorem C7_thm (env : NovaEnv) (ha az : List ScopeEntry) (nodes : List String) :
    ((SVal.s "*" ∈ ha.filterMap (fun a => dictGet a "id") ∨
      SVal.s "*" ∈ ha.filterMap (fun a => dictGet a "name")) →
      collect_aggregates env ha nodes = collect_aggregates env wildcard_id_filter nodes)
    ∧
    ((∃ z ∈ az, dictGet z "name" = some (SVal.s "*")) →
     (∀ z ∈ az, (dictGet z "name").isSome) →
      collect_zones env az nodes = collect_zones env wildcard_name_filter nodes) := by
  constructor
  · intro hw
    have hL : collect_aggregates env ha nodes =
        env.aggregate_list.foldl (fun ns aggregate => pyUpdate ns aggregate.hosts) nodes := by
      unfold collect_aggregates
      apply List.foldl_ext
      intro ns a _
      rw [if_pos (Or.inr (Or.inr hw))]
    have hR : collect_aggregates env wildcard_id_filter nodes =
        env.aggregate_list.foldl (fun ns aggregate => pyUpdate ns aggregate.hosts) nodes := by
      unfold collect_aggregates
      apply List.foldl_ext
      intro ns a _
      rw [if_pos]
      right; right; left
      simp [wildcard_id_filter, dictGet]
    rw [hL, hR]
  · intro hex hall
    have hmem : SVal.s "*" ∈ az.filterMap (fun z => dictGet z "name") := by
      obtain ⟨z, hz, hzv⟩ := hex
      exact List.mem_filterMap.mpr ⟨z, hz, hzv⟩
    unfold collect_zones
    rw [zone_names_of_all_some az hall,
      show zone_names_of wildcard_name_filter = Except.ok [SVal.s "*"] from rfl]
    dsimp only
    congr 1
    apply List.foldl_ext
    intro ns sv _
    rw [if_pos (Or.inr hmem), if_pos (Or.inr (by simp))]

/-- Environment for the C7 witness: one aggregate and one zone service. -/
def envC7 : NovaEnv :=
  { aggregate_list := [⟨1, "gpu-pool", ["h1", "h2"]⟩]
    service_list := [⟨"n1", "nova"⟩]
    compute_node_list := []
    compute_node_by_name := fun _ => none
    compute_node_by_id := fun _ => none
    find_instance := fun _ => none
    instance_list := [] }

/-- Witness for C7 on concrete filters mixing the wildcard with concrete
entries. -/
theorem C7_witness :
    collect_aggregates envC7 [[("id", SVal.s "*")], [("name", SVal.s "gpu-pool")]] [] =
      collect_aggregates envC7 wildcard_id_filter [] ∧
    collect_zones envC7 [[("name", SVal.s "*")], [("name", SVal.s "az1")]] [] =
      collect_zones envC7 wildcard_name_filter [] :=
  ⟨(C7_thm envC7 [[("id", SVal.s "*")], [("name", SVal.s "gpu-pool")]] [] []).1
      (by simp [dictGet]),
   (C7_thm envC7 [] [[("name", SVal.s "*")], [("name", SVal.s "az1")]] []).2
      (by refine ⟨[("name", SVal.s "*")], by simp, by simp [dictGet]⟩)
      (by intro z hz
          simp only [List.mem_cons, List.not_mem_nil, or_false] at hz
          rcases hz with rfl | rfl <;> simp [dictGet])⟩

/-! The keystone helper (src/watcher/common/keystone_helper.py). -/

/-- Errors of the keystone client itself: the http `NotFound` that triggers
the name fallback, and any other client error. -/
inductive KsErr where
  | notFound
  | other
deriving DecidableEq

/-- Errors escaping the helper: a propagated keystone client error, or the
watcher `exception.Invalid` raised with a not-found message or with an
ambiguity message. -/
inductive LkErr where
  | ks : KsErr → LkErr
  | invalidNotFound : String → LkErr
  | invalidAmbiguous : String → LkErr
deriving DecidableEq

/-- A keystone role record. -/
structure KRole where
  id : String
deriving DecidableEq

/-- A keystone user record. -/
structure KUser where
  id : String
deriving DecidableEq

/-- A keystone project record. -/
structure KProject where
  id : String
deriving DecidableEq

/-- A keystone domain record. -/
structure KDomain where
  id : String
deriving DecidableEq

/-- The keystone client, supplied as data: for each entity kind, the
id-lookup (which can fail with a keystone error) and the name-filtered
listing; plus the user delete call, whose own outcome is also data. -/
structure KeystoneEnv where
  roles_get : String → Except KsErr KRole
  roles_list : String → List KRole
  users_get : String → Except KsErr KUser
  users_list : String → List KUser
  projects_get : String → Except KsErr KProject
  projects_list : String → List KProject
  domains_get : String → Except KsErr KDomain
  domains_list : String → List KDomain
  users_delete : KUser → Except LkErr Unit

/-- Embedding of `KeystoneHelper.get_role`: id-lookup first; only on the
keystone NotFound outcome fall back to the name listing, raising Invalid
for zero matches (not found) or more than one match (ambiguous); the list
match cases mirror the two length tests of the source. -/
def get_role (env : KeystoneEnv) (name_or_id : String) : Except LkErr KRole :=
  match env.roles_get name_or_id with
  | .ok role => .ok role
  | .error .notFound =>
    match env.roles_list name_or_id with
    | [] => .error (.invalidNotFound name_or_id)
    | [r] => .ok r
    | _ :: _ :: _ => .error (.invalidAmbiguous name_or_id)
  | .error .other => .error (.ks .other)

/-- Embedding of `KeystoneHelper.get_user`, same shape as `get_role`. -/
def get_user (env : KeystoneEnv) (name_or_id : String) : Except LkErr KUser :=
  match env.users_get name_or_id with
  | .ok user => .ok user
  | .error .notFound =>
    match env.users_list name_or_id with
    | [] => .error (.invalidNotFound name_or_id)
    | [u] => .ok u
    | _ :: _ :: _ => .error (.invalidAmbiguous name_or_id)
  | .error .other => .error (.ks .other)

/-- Embedding of `KeystoneHelper.get_project`, same shape as `get_role`. -/
def get_project (env : KeystoneEnv) (name_or_id : String) : Except LkErr KProject :=
  match env.projects_get name_or_id with
  | .ok project => .ok project
  | .error .notFound =>
    match env.projects_list name_or_id with
    | [] => .error (.invalidNotFound name_or_id)
    | [p] => .ok p
    | _ :: _ :: _ => .error (.invalidAmbiguous name_or_id)
  | .error .other => .error (.ks .other)

/-- Embedding of `KeystoneHelper.get_domain`, same shape as `get_role`. -/
def get_domain (env : KeystoneEnv) (name_or_id : String) : Except LkErr KDomain :=
  match env.domains_get name_or_id with
  | .ok domain => .ok domain
  | .error .notFound =>
    match env.domains_list name_or_id with
    | [] => .error (.invalidNotFound name_or_id)
    | [d] => .ok d
    | _ :: _ :: _ => .error (.invalidAmbiguous name_or_id)
  | .error .other => .error (.ks .other)

/-- Whether an error is the watcher `exception.Invalid` (either message),
the class caught by `delete_user`. -/
def isInvalidErr : LkErr → Bool
  | .ks _ => false
  | .invalidNotFound _ => true
  | .invalidAmbiguous _ => true

/-- Embedding of `KeystoneHelper.delete_user`: look the user up and delete
it, swallowing `exception.Invalid` raised by either step; every other error
propagates. -/
def delete_user (env : KeystoneEnv) (u : String) : Except LkErr Unit :=
  match get_user env u with
  | .ok user =>
    match env.users_delete user with
    | .ok _ => .ok ()
    | .error e => if isInvalidErr e then .ok () else .error e
  | .error e => if isInvalidErr e then .ok () else .error e

/-- C9: for each of the four name-or-id lookups, a successful id-lookup is
returned as is; a non-NotFound client error propagates without any name
fallback; and on NotFound the name listing decides — no match raises the
not-found Invalid, exactly one match is returned, and more than one match
raises the ambiguous Invalid instead of picking the first. -/
theorem C9_thm (env : KeystoneEnv) (x : String) :
    ((∀ r, env.roles_get x = .ok r → get_role env x = .ok r) ∧
     (env.roles_get x = .error .other → get_role env x = .error (.ks .other)) ∧
     (env.roles_get x = .error .notFound → env.roles_list x = [] →
       get_role env x = .error (.invalidNotFound x)) ∧
     (∀ r, env.roles_get x = .error .notFound → env.roles_list x = [r] →
       get_role env x = .ok r) ∧
     (∀ r1 r2 rs, env.roles_get x = .error .notFound →
       env.roles_list x = r1 :: r2 :: rs →
       get_role env x = .error (.invalidAmbiguous x))) ∧
    ((∀ u, env.users_get x = .ok u → get_user env x = .ok u) ∧
     (env.users_get x = .error .other → get_user env x = .error (.ks .other)) ∧
     (env.users_get x = .error .notFound → env.users_list x = [] →
       get_user env x = .error (.invalidNotFound x)) ∧
     (∀ u, env.users_get x = .error .notFound → env.users_list x = [u] →
       get_user env x = .ok u) ∧
     (∀ u1 u2 us, env.users_get x = .error .notFound →
       env.users_list x = u1 :: u2 :: us →
       get_user env x = .error (.invalidAmbiguous x))) ∧
    ((∀ p, env.projects_get x = .ok p → get_project env x = .ok p) ∧
     (env.projects_get x = .error .other → get_project env x = .error (.ks .other)) ∧
     (env.projects_get x = .error .notFound → env.projects_list x = [] →
       get_project env x = .error (.invalidNotFound x)) ∧
     (∀ p, env.projects_get x = .error .notFound → env.projects_list x = [p] →
       get_project env x = .ok p) ∧
     (∀ p1 p2 ps, env.projects_get x = .error .notFound →
       env.projects_list x = p1 :: p2 :: ps →
       get_project env x = .error (.invalidAmbiguous x))) ∧
    ((∀ d, env.domains_get x = .ok d → get_domain env x = .ok d) ∧
     (env.domains_get x = .error .other → get_domain env x = .error (.ks .other)) ∧
     (env.domains_get x = .error .notFound → env.domains_list x = [] →
       get_domain env x = .error (.invalidNotFound x)) ∧
     (∀ d, env.domains_get x = .error .notFound → env.domains_list x = [d] →
       get_domain env x = .ok d) ∧
     (∀ d1 d2 ds, env.domains_get x = .error .notFound →
       env.domains_list x = d1 :: d2 :: ds →
       get_domain env x = .error (.invalidAmbiguous x))) := by
  refine ⟨⟨?_, ?_, ?_, ?_, ?_⟩, ⟨?_, ?_, ?_, ?_, ?_⟩,
    ⟨?_, ?_, ?_, ?_, ?_⟩, ⟨?_, ?_, ?_, ?_, ?_⟩⟩ <;>
    · intros
      simp_all [get_role, get_user, get_project, get_domain]

/-- Keystone environment for the C9 witness: the id-lookup reports
NotFound and two roles share the looked-up name. -/
def envK9 : KeystoneEnv :=
  { roles_get := fun _ => .error .notFound
    roles_list := fun _ => [⟨"r1"⟩, ⟨"r2"⟩]
    users_get := fun _ => .error .notFound
    users_list := fun _ => []
    projects_get := fun _ => .error .notFound
    projects_list := fun _ => []
    domains_get := fun _ => .error .notFound
    domains_list := fun _ => []
    users_delete := fun _ => .ok () }

/-- Witness for C9: two roles named "operator" make the lookup raise the
ambiguous Invalid rather than return the first match. -/
theorem C9_witness :
    envK9.roles_get "operator" = .error .notFound ∧
    envK9.roles_list "operator" = [⟨"r1"⟩, ⟨"r2"⟩] ∧
    get_role envK9 "operator" = .error (.invalidAmbiguous "operator") :=
  ⟨rfl, rfl,
   (C9_thm envK9 "operator").1.2.2.2.2 ⟨"r1"⟩ ⟨"r2"⟩ [] rfl rfl⟩

/-- C10: whenever the user lookup fails with the watcher Invalid error (in
particular when the user does not exist), `delete_user` swallows the
failure and returns normally. -/
theorem C10_thm (env : KeystoneEnv) (u : String) (e : LkErr)
    (h : get_user env u = .error e) (hi : isInvalidErr e = true) :
    delete_user env u = .ok () := by
  simp [delete_user, h, hi]

/-- Keystone environment for the C10 witness: no user exists at all. -/
def envK10 : KeystoneEnv :=
  { roles_get := fun _ => .error .notFound
    roles_list := fun _ => []
    users_get := fun _ => .error .notFound
    users_list := fun _ => []
    projects_get := fun _ => .error .notFound
    projects_list := fun _ => []
    domains_get := fun _ => .error .notFound
    domains_list := fun _ => []
    users_delete := fun _ => .ok () }

/-- Witness for C10: deleting the nonexistent user "ghost" returns
normally although the lookup raised the not-found Invalid. -/
theorem C10_witness :
    get_user envK10 "ghost" = .error (.invalidNotFound "ghost") ∧
    delete_user envK10 "ghost" = .ok () :=
  ⟨rfl, C10_thm envK10 "ghost" (.invalidNotFound "ghost") rfl rfl⟩

/-! Claim C6: a host disappearing mid-build is skipped silently.  The
lemmas below track how the host loop of `_add_physical_layer` grows the
model: node and instance membership survive later iterations whose uuids
differ, and every fetched host contributes its node and its instances. -/

theorem mem_add_node_self (m : ModelRoot) (c : ComputeNode) :
    c ∈ (m.add_node c).nodes := by
  simp [ModelRoot.add_node]

theorem mem_add_node_of_ne (m : ModelRoot) (c d : ComputeNode)
    (h : c ∈ m.nodes) (hne : c.uuid ≠ d.uuid) : c ∈ (m.add_node d).nodes := by
  simp [ModelRoot.add_node]
  left
  exact ⟨h, by simpa using hne⟩

theorem get_node_by_uuid_add_node (m : ModelRoot) (d : ComputeNode) :
    (m.add_node d).get_node_by_uuid (some d.uuid) = some d := by
  show (m.nodes.filter (fun n => n.uuid != d.uuid) ++ [d]).find?
      (fun n => n.uuid == d.uuid) = some d
  rw [List.find?_append]
  have h1 : (m.nodes.filter (fun n => n.uuid != d.uuid)).find?
      (fun n => n.uuid == d.uuid) = none := by
    rw [List.find?_eq_none]
    intro x hx
    have hx2 := (List.mem_filter.mp hx).2
    simp at hx2 ⊢
    exact hx2
  rw [h1]
  simp [List.find?]

theorem mem_add_instance_self (m : ModelRoot) (x : Instance) :
    x ∈ (m.add_instance x).instances := by
  simp [ModelRoot.add_instance]

theorem mem_add_instance_of_ne (m : ModelRoot) (x y : Instance)
    (h : x ∈ m.instances) (hne : x.uuid ≠ y.uuid) : x ∈ (m.add_instance y).instances := by
  simp [ModelRoot.add_instance]
  left
  exact ⟨h, by simpa using hne⟩

theorem add_instances_loop_nodes (env : NovaEnv) (us : List String)
    (m m2 : ModelRoot) (h : add_instances_loop env us m = .ok m2) :
    m2.nodes = m.nodes := by
  induction us generalizing m with
  | nil =>
    rw [add_instances_loop] at h
    injection h with h1
    rw [h1]
  | cons u rest ih =>
    rw [add_instances_loop] at h
    cases hf : env.find_instance u with
    | none =>
      rw [hf] at h
      exact ih _ h
    | some inst =>
      rw [hf] at h
      dsimp only at h
      cases hg : (m.add_instance (build_instance_node inst)).get_node_by_uuid inst.host with
      | none =>
        rw [hg] at h
        dsimp only at h
        exact absurd h (by simp)
      | some cn =>
        rw [hg] at h
        dsimp only at h
        exact (ih _ h).trans rfl

theorem add_instances_loop_preserve (env : NovaEnv) (us : List String)
    (m m2 : ModelRoot) (x : Instance)
    (h : add_instances_loop env us m = .ok m2)
    (hx : x ∈ m.instances)
    (hne : ∀ u ∈ us, ∀ inst, env.find_instance u = some inst → inst.id ≠ x.uuid) :
    x ∈ m2.instances := by
  induction us generalizing m with
  | nil =>
    rw [add_instances_loop] at h
    injection h with h1
    rwa [← h1]
  | cons u rest ih =>
    rw [add_instances_loop] at h
    cases hf : env.find_instance u with
    | none =>
      rw [hf] at h
      exact ih _ h hx (fun v hv => hne v (by simp [hv]))
    | some inst =>
      rw [hf] at h
      dsimp only at h
      cases hg : (m.add_instance (build_instance_node inst)).get_node_by_uuid inst.host with
      | none =>
        rw [hg] at h
        dsimp only at h
        exact absurd h (by simp)
      | some cn =>
        rw [hg] at h
        dsimp only at h
        refine ih _ h ?_ ?_
        · show x ∈ (m.add_instance (build_instance_node inst)).instances
          apply mem_add_instance_of_ne _ _ _ hx
          exact fun hEq => (hne u (by simp) inst hf) (by simpa [build_instance_node] using hEq.symm)
        · exact fun v hv => hne v (by simp [hv])


/-- A host whose fetches all succeed and whose instances all point back at
its own node uuid; Bool-valued so a witness can evaluate it. -/
def hostOKb (env : NovaEnv) (h : String) : Bool :=
  match env.compute_node_by_name h with
  | none => false
  | some cn =>
    match env.compute_node_by_id cn.id with
    | none => false
    | some i =>
      (cn.servers.getD []).all fun s =>
        match env.find_instance s.uuid with
        | none => true
        | some inst => inst.host == some i.service_host

/-- The node uuid a host would contribute to the model, when resolvable. -/
def nodeUuid (env : NovaEnv) (h : String) : Option String :=
  match env.compute_node_by_name h with
  | none => none
  | some cn => (env.compute_node_by_id cn.id).map (fun i => i.service_host)

/-- The instance uuids the build would fetch for one host. -/
def instIds (env : NovaEnv) (h : String) : List String :=
  match env.compute_node_by_name h with
  | none => []
  | some cn =>
    (cn.servers.getD []).filterMap (fun s => (env.find_instance s.uuid).map (fun i => i.id))

/-- All instance uuids the build would fetch over a host list. -/
def allInstIds (env : NovaEnv) (hs : List String) : List String :=
  hs.foldr (fun h acc => instIds env h ++ acc) []

theorem add_instance_node_nodes (env : NovaEnv) (node : CNode) (m m2 : ModelRoot)
    (h : add_instance_node env node m = .ok m2) : m2.nodes = m.nodes := by
  cases hsv : node.servers with
  | none =>
    rw [add_instance_node, hsv] at h
    injection h with h1
    rw [h1]
  | some svs =>
    rw [add_instance_node, hsv] at h
    exact add_instances_loop_nodes env _ _ _ h

theorem add_instances_loop_adds (env : NovaEnv) (us : List String)
    (m : ModelRoot) (hostU : String) (cn : ComputeNode)
    (hnode : m.get_node_by_uuid (some hostU) = some cn)
    (hh : ∀ u ∈ us, ∀ inst, env.find_instance u = some inst → inst.host = some hostU)
    (hnd : (us.filterMap (fun u => (env.find_instance u).map (fun i => i.id))).Nodup) :
    ∃ m2, add_instances_loop env us m = .ok m2 ∧ m2.nodes = m.nodes ∧
      (∀ u ∈ us, ∀ inst, env.find_instance u = some inst →
        build_instance_node inst ∈ m2.instances) := by
  induction us generalizing m with
  | nil => exact ⟨m, rfl, rfl, by simp⟩
  | cons u rest ih =>
    cases hf : env.find_instance u with
    | none =>
      have hnd2 : (rest.filterMap (fun u => (env.find_instance u).map (fun i => i.id))).Nodup := by
        simpa [List.filterMap_cons, hf] using hnd
      obtain ⟨m2, h1, h2, h3⟩ := ih m hnode (fun v hv => hh v (by simp [hv])) hnd2
      refine ⟨m2, ?_, h2, ?_⟩
      · rw [add_instances_loop, hf]
        exact h1
      · intro v hv inst hfv
        rcases List.mem_cons.mp hv with rfl | hv2
        · rw [hf] at hfv
          exact absurd hfv (by simp)
        · exact h3 v hv2 inst hfv
    | some inst =>
      have hhost := hh u (by simp) inst hf
      have hndc : (inst.id ::
          rest.filterMap (fun u => (env.find_instance u).map (fun i => i.id))).Nodup := by
        simpa [List.filterMap_cons, hf] using hnd
      have hnotin := (List.nodup_cons.mp hndc).1
      have hnd2 := (List.nodup_cons.mp hndc).2
      have hg : (m.add_instance (build_instance_node inst)).get_node_by_uuid inst.host =
          some cn := by
        rw [hhost]
        exact hnode
      have hnode1 : ((m.add_instance (build_instance_node inst)).map_instance
          (build_instance_node inst) cn).get_node_by_uuid (some hostU) = some cn := hnode
      obtain ⟨m2, h1, h2, h3⟩ := ih _ hnode1 (fun v hv => hh v (by simp [hv])) hnd2
      refine ⟨m2, ?_, ?_, ?_⟩
      · rw [add_instances_loop, hf]
        dsimp only
        rw [hg]
        exact h1
      · exact h2.trans rfl
      · intro v hv inst2 hfv
        rcases List.mem_cons.mp hv with rfl | hv2
        · rw [hf] at hfv
          injection hfv with hEq
          subst hEq
          apply add_instances_loop_preserve env rest _ m2 (build_instance_node inst) h1
          · show (build_instance_node inst) ∈
              ((m.add_instance (build_instance_node inst)).instances)
            exact mem_add_instance_self m (build_instance_node inst)
          · intro w hw inst3 hfw hEq2
            apply hnotin
            have hid3 : inst3.id = inst.id := hEq2
            exact List.mem_filterMap.mpr ⟨w, hw, by simp [hfw, hid3]⟩
        · exact h3 v hv2 inst2 hfv

theorem add_hosts_loop_preserve_node (env : NovaEnv) (hs : List String)
    (m m2 : ModelRoot) (c : ComputeNode)
    (h : add_hosts_loop env hs m = .ok m2)
    (hc : c ∈ m.nodes)
    (hne : ∀ u ∈ hs.filterMap (nodeUuid env), u ≠ c.uuid) :
    c ∈ m2.nodes := by
  induction hs generalizing m with
  | nil =>
    rw [add_hosts_loop] at h
    injection h with h1
    rwa [← h1]
  | cons n rest ih =>
    have htail : ∀ u, u ∈ rest.filterMap (nodeUuid env) →
        u ∈ (n :: rest).filterMap (nodeUuid env) := by
      intro u hu
      obtain ⟨a, ha, hfa⟩ := List.mem_filterMap.mp hu
      exact List.mem_filterMap.mpr ⟨a, by simp [ha], hfa⟩
    rw [add_hosts_loop] at h
    cases hcn : env.compute_node_by_name n with
    | none =>
      rw [hcn] at h
      exact ih _ h hc (fun u hu => hne u (htail u hu))
    | some cnode =>
      rw [hcn] at h
      cases hid : env.compute_node_by_id cnode.id with
      | none =>
        simp only [add_compute_node] at h
        rw [hid] at h
        dsimp only at h
        exact absurd h (by simp)
      | some i =>
        simp only [add_compute_node] at h
        rw [hid] at h
        dsimp only at h
        have hneH : i.service_host ≠ c.uuid := by
          apply hne
          exact List.mem_filterMap.mpr ⟨n, by simp, by simp [nodeUuid, hcn, hid]⟩
        have hc1 : c ∈ (m.add_node (build_compute_node i)).nodes :=
          mem_add_node_of_ne m c (build_compute_node i) hc (fun hEq => hneH (by simpa [build_compute_node] using hEq.symm))
        cases hai : add_instance_node env cnode (m.add_node (build_compute_node i)) with
        | error e =>
          rw [hai] at h
          dsimp only at h
          exact absurd h (by simp)
        | ok m1 =>
          rw [hai] at h
          dsimp only at h
          refine ih _ h ?_ (fun u hu => hne u (htail u hu))
          rw [add_instance_node_nodes env cnode _ m1 hai]
          exact hc1


theorem add_instance_node_preserve (env : NovaEnv) (node : CNode) (m m2 : ModelRoot)
    (x : Instance)
    (h : add_instance_node env node m = .ok m2)
    (hx : x ∈ m.instances)
    (hne : ∀ s ∈ node.servers.getD [], ∀ inst, env.find_instance s.uuid = some inst →
      inst.id ≠ x.uuid) :
    x ∈ m2.instances := by
  cases hsv : node.servers with
  | none =>
    rw [add_instance_node, hsv] at h
    injection h with h1
    rwa [← h1]
  | some svs =>
    rw [add_instance_node, hsv] at h
    apply add_instances_loop_preserve env _ m m2 x h hx
    intro u hu inst hf
    obtain ⟨s, hs, hsu⟩ := List.mem_map.mp hu
    subst hsu
    exact hne s (by simpa [hsv] using hs) inst hf

theorem add_hosts_loop_preserve_inst (env : NovaEnv) (hs : List String)
    (m m2 : ModelRoot) (x : Instance)
    (h : add_hosts_loop env hs m = .ok m2)
    (hx : x ∈ m.instances)
    (hne : ∀ u ∈ allInstIds env hs, u ≠ x.uuid) :
    x ∈ m2.instances := by
  induction hs generalizing m with
  | nil =>
    rw [add_hosts_loop] at h
    injection h with h1
    rwa [← h1]
  | cons n rest ih =>
    have hneTail : ∀ u ∈ allInstIds env rest, u ≠ x.uuid := by
      intro u hu
      apply hne
      show u ∈ instIds env n ++ allInstIds env rest
      exact List.mem_append_right _ hu
    rw [add_hosts_loop] at h
    cases hcn : env.compute_node_by_name n with
    | none =>
      rw [hcn] at h
      exact ih _ h hx hneTail
    | some cnode =>
      rw [hcn] at h
      cases hid : env.compute_node_by_id cnode.id with
      | none =>
        simp only [add_compute_node] at h
        rw [hid] at h
        dsimp only at h
        exact absurd h (by simp)
      | some i =>
        simp only [add_compute_node] at h
        rw [hid] at h
        dsimp only at h
        cases hai : add_instance_node env cnode (m.add_node (build_compute_node i)) with
        | error e =>
          rw [hai] at h
          dsimp only at h
          exact absurd h (by simp)
        | ok m1 =>
          rw [hai] at h
          dsimp only at h
          refine ih _ h ?_ hneTail
          refine add_instance_node_preserve env cnode _ m1 x hai ?_ ?_
          · show x ∈ m.instances
            exact hx
          · intro s hsm inst hf hEq
            refine hne inst.id ?_ hEq
            show inst.id ∈ instIds env n ++ allInstIds env rest
            apply List.mem_append_left
            unfold instIds
            rw [hcn]
            exact List.mem_filterMap.mpr ⟨s, hsm, by simp [hf]⟩

theorem add_instance_node_adds (env : NovaEnv) (node : CNode) (m : ModelRoot)
    (hostU : String) (cnB : ComputeNode)
    (hnode : m.get_node_by_uuid (some hostU) = some cnB)
    (hh : ∀ s ∈ node.servers.getD [], ∀ inst, env.find_instance s.uuid = some inst →
      inst.host = some hostU)
    (hnd : ((node.servers.getD []).filterMap
      (fun s => (env.find_instance s.uuid).map (fun i => i.id))).Nodup) :
    ∃ m2, add_instance_node env node m = .ok m2 ∧ m2.nodes = m.nodes ∧
      (∀ s ∈ node.servers.getD [], ∀ inst, env.find_instance s.uuid = some inst →
        build_instance_node inst ∈ m2.instances) := by
  cases hsv : node.servers with
  | none =>
    refine ⟨m, ?_, rfl, ?_⟩
    · rw [add_instance_node, hsv]
    · simp [hsv]
  | some svs =>
    have hh2 : ∀ u ∈ svs.map (fun s => s.uuid), ∀ inst,
        env.find_instance u = some inst → inst.host = some hostU := by
      intro u hu inst hf
      obtain ⟨s, hs, rfl⟩ := List.mem_map.mp hu
      exact hh s (by simpa [hsv] using hs) inst hf
    have hnd2 : ((svs.map (fun s => s.uuid)).filterMap
        (fun u => (env.find_instance u).map (fun i => i.id))).Nodup := by
      rw [List.filterMap_map]
      simpa [hsv] using hnd
    obtain ⟨m2, h1, h2, h3⟩ := add_instances_loop_adds env _ m hostU cnB hnode hh2 hnd2
    refine ⟨m2, ?_, h2, ?_⟩
    · rw [add_instance_node, hsv]
      exact h1
    · intro s hsm inst hf
      exact h3 s.uuid (List.mem_map.mpr ⟨s, by simpa [hsv] using hsm, rfl⟩) inst hf

theorem add_hosts_loop_builds (env : NovaEnv) (hs : List String) (m : ModelRoot)
    (hok : ∀ h ∈ hs, env.compute_node_by_name h = none ∨ hostOKb env h = true)
    (hninj : (hs.filterMap (nodeUuid env)).Nodup)
    (hiinj : (allInstIds env hs).Nodup) :
    ∃ m2, add_hosts_loop env hs m = .ok m2 ∧
      (∀ h ∈ hs, ∀ cn i, env.compute_node_by_name h = some cn →
        env.compute_node_by_id cn.id = some i → build_compute_node i ∈ m2.nodes) ∧
      (∀ h ∈ hs, ∀ cn, env.compute_node_by_name h = some cn →
        ∀ s ∈ cn.servers.getD [], ∀ inst, env.find_instance s.uuid = some inst →
          build_instance_node inst ∈ m2.instances) := by
  induction hs generalizing m with
  | nil => exact ⟨m, rfl, by simp, by simp⟩
  | cons n rest ih =>
    have hokTail : ∀ h ∈ rest, env.compute_node_by_name h = none ∨ hostOKb env h = true :=
      fun h hh => hok h (by simp [hh])
    have hIappend : allInstIds env (n :: rest) = instIds env n ++ allInstIds env rest := rfl
    rw [hIappend] at hiinj
    obtain ⟨hiL, hiR, hdisj⟩ := List.nodup_append.mp hiinj
    rcases hok n (by simp) with hnone | hOK
    · have hnu : nodeUuid env n = none := by
        unfold nodeUuid
        rw [hnone]
      have hninjT : (rest.filterMap (nodeUuid env)).Nodup := by
        simpa [List.filterMap_cons, hnu] using hninj
      obtain ⟨m2, h1, h2, h3⟩ := ih m hokTail hninjT hiR
      refine ⟨m2, ?_, ?_, ?_⟩
      · rw [add_hosts_loop, hnone]
        exact h1
      · intro h hh cn2 i2 hcn2 hid2
        rcases List.mem_cons.mp hh with rfl | hh2
        · rw [hnone] at hcn2
          exact absurd hcn2 (by simp)
        · exact h2 h hh2 cn2 i2 hcn2 hid2
      · intro h hh cn2 hcn2 s hsm inst hf
        rcases List.mem_cons.mp hh with rfl | hh2
        · rw [hnone] at hcn2
          exact absurd hcn2 (by simp)
        · exact h3 h hh2 cn2 hcn2 s hsm inst hf
    · cases hcn : env.compute_node_by_name n with
      | none =>
        unfold hostOKb at hOK
        rw [hcn] at hOK
        dsimp only at hOK
        exact absurd hOK (by simp)
      | some cnode =>
        cases hid : env.compute_node_by_id cnode.id with
        | none =>
          unfold hostOKb at hOK
          rw [hcn] at hOK
          dsimp only at hOK
          rw [hid] at hOK
          dsimp only at hOK
          exact absurd hOK (by simp)
        | some i =>
          have hall : ∀ s ∈ cnode.servers.getD [], ∀ inst,
              env.find_instance s.uuid = some inst → inst.host = some i.service_host := by
            unfold hostOKb at hOK
            rw [hcn] at hOK
            dsimp only at hOK
            rw [hid] at hOK
            dsimp only at hOK
            intro s hsm inst hf
            have hs2 := List.all_eq_true.mp hOK s hsm
            rw [hf] at hs2
            exact eq_of_beq hs2
          have hnu : nodeUuid env n = some i.service_host := by
            unfold nodeUuid
            rw [hcn]
            dsimp only
            rw [hid]
            rfl
          have hninjC : (i.service_host :: rest.filterMap (nodeUuid env)).Nodup := by
            simpa [List.filterMap_cons, hnu] using hninj
          have hnuNotin := (List.nodup_cons.mp hninjC).1
          have hninjT := (List.nodup_cons.mp hninjC).2
          have hIdsN : instIds env n = (cnode.servers.getD []).filterMap
              (fun s => (env.find_instance s.uuid).map (fun i => i.id)) := by
            unfold instIds
            rw [hcn]
          have hnodeB : (m.add_node (build_compute_node i)).get_node_by_uuid
              (some i.service_host) = some (build_compute_node i) :=
            get_node_by_uuid_add_node m (build_compute_node i)
          obtain ⟨m1, hA1, hA2, hA3⟩ := add_instance_node_adds env cnode
            (m.add_node (build_compute_node i)) i.service_host (build_compute_node i)
            hnodeB hall (by rw [← hIdsN]; exact hiL)
          obtain ⟨m2, h1, h2, h3⟩ := ih m1 hokTail hninjT hiR
          refine ⟨m2, ?_, ?_, ?_⟩
          · rw [add_hosts_loop, hcn]
            simp only [add_compute_node]
            rw [hid]
            dsimp only
            rw [hA1]
            exact h1
          · intro h hh cn2 i2 hcn2 hid2
            rcases List.mem_cons.mp hh with rfl | hh2
            · rw [hcn] at hcn2
              injection hcn2 with e1
              subst e1
              rw [hid] at hid2
              injection hid2 with e2
              subst e2
              refine add_hosts_loop_preserve_node env rest m1 m2 _ h1 ?_ ?_
              · rw [hA2]
                exact mem_add_node_self m (build_compute_node i)
              · intro u hu hEq
                apply hnuNotin
                have : u = i.service_host := hEq
                rw [← this]
                exact hu
            · exact h2 h hh2 cn2 i2 hcn2 hid2
          · intro h hh cn2 hcn2 s hsm inst hf
            rcases List.mem_cons.mp hh with rfl | hh2
            · rw [hcn] at hcn2
              injection hcn2 with e1
              subst e1
              refine add_hosts_loop_preserve_inst env rest m1 m2 _ h1
                (hA3 s hsm inst hf) ?_
              intro u hu hEq
              have hIdMem : inst.id ∈ (cnode.servers.getD []).filterMap
                  (fun s => Option.map (fun i => i.id) (env.find_instance s.uuid)) :=
                List.mem_filterMap.mpr ⟨s, hsm, by simp [hf]⟩
              rw [← hIdsN] at hIdMem
              have hu2 : inst.id ∈ allInstIds env rest := by
                have hq : u = inst.id := hEq
                rw [← hq]
                exact hu
              exact hdisj hIdMem hu2
            · exact h3 h hh2 cn2 hcn2 s hsm inst hf


/-- C6: over any resolved host list in which exactly one host b fails its
detail fetch (NotFound) while every other host fetches consistently, the
host loop finishes without error and the finished model contains each of
the other hosts and each of their fetched instances; the uuid-freshness
hypotheses say the environment hands out distinct node and instance uuids,
as a live cluster does. -/
theorem C6_thm (env : NovaEnv) (hs : List String) (b : String) (m : ModelRoot)
    (hb : b ∈ hs)
    (hbnone : env.compute_node_by_name b = none)
    (hok : ∀ h ∈ hs, h ≠ b → hostOKb env h = true)
    (hninj : (hs.filterMap (nodeUuid env)).Nodup)
    (hiinj : (allInstIds env hs).Nodup) :
    ∃ m2, add_hosts_loop env hs m = .ok m2 ∧
      (∀ h ∈ hs, ∀ cn i, env.compute_node_by_name h = some cn →
        env.compute_node_by_id cn.id = some i → build_compute_node i ∈ m2.nodes) ∧
      (∀ h ∈ hs, ∀ cn, env.compute_node_by_name h = some cn →
        ∀ s ∈ cn.servers.getD [], ∀ inst, env.find_instance s.uuid = some inst →
          build_instance_node inst ∈ m2.instances) := by
  apply add_hosts_loop_builds env hs m ?_ hninj hiinj
  intro h hh
  by_cases hEq : h = b
  · exact Or.inl (hEq ▸ hbnone)
  · exact Or.inr (hok h hh hEq)

/-- Compute node detail record of the surviving host of the C6 witness. -/
def cnodeC6 : CNode := ⟨1, some [⟨"u1"⟩]⟩

/-- By-id detail record of the surviving host of the C6 witness. -/
def infoC6 : NodeInfo := ⟨1, "h1-svc", "h1", 2048, 10, 100, 4, "up", "enabled", none⟩

/-- The one instance of the surviving host of the C6 witness. -/
def instC6 : InstRecord :=
  ⟨"i1", "vm1", 512, 5, 2, "active", [], "proj", false, some "h1-svc"⟩

/-- Environment of the C6 witness: host "h1" resolves fully, host "hbad"
yields no result on its detail fetch. -/
def envC6 : NovaEnv :=
  { aggregate_list := []
    service_list := []
    compute_node_list := [⟨"h1"⟩, ⟨"hbad"⟩]
    compute_node_by_name := fun u => if u = "h1" then some cnodeC6 else none
    compute_node_by_id := fun n => if n = 1 then some infoC6 else none
    find_instance := fun u => if u = "u1" then some instC6 else none
    instance_list := [] }

/-- Witness for C6: of the two resolved hosts, "hbad" has disappeared; the
loop succeeds and the model contains the "h1" node and its instance. -/
theorem C6_witness :
    ∃ m2, add_hosts_loop envC6 ["h1", "hbad"] ModelRoot.empty = .ok m2 ∧
      build_compute_node infoC6 ∈ m2.nodes ∧
      build_instance_node instC6 ∈ m2.instances := by
  obtain ⟨m2, h1, h2, h3⟩ := C6_thm envC6 ["h1", "hbad"] "hbad" ModelRoot.empty
    (by simp) rfl
    (by decide)
    (by decide)
    (by decide)
  exact ⟨m2, h1,
    h2 "h1" (by simp) cnodeC6 infoC6 rfl rfl,
    h3 "h1" (by simp) cnodeC6 rfl ⟨"u1"⟩ (by exact List.mem_singleton.mpr rfl) instC6 rfl⟩

end Watcher





